import Mathlib

/-!
Verification development for the Email Productivity Agent repository.

The Python sources under `backend/` are shallowly embedded as pure Lean
functions.  Machine integers are modelled as `Int`/`Nat` (Python integers are
unbounded, so no wrap-around is involved), fallible code returns `Option` or
`Except`, the SQLite store is modelled as an explicit `Store` value threaded
through the pipeline, and LLM backends are oracles passed in as functions.
Wall-clock timestamps and logging to stderr are outside the model; the
database `processing_logs` table is modelled (it is observable state).
-/

namespace EmailAgent

/-! ## Python string primitives

Models of the Python `str` operations used by the repository: `str.strip`,
`str.lower`, the `in` substring test, slicing, `str.find`/`str.rfind`, and
list truncation `l[-n:]`.  Characters are handled ASCII-wise, which covers
every literal the repository compares against. -/

/-- Characters removed by Python `str.strip()` (ASCII whitespace). -/
def pyIsSpace (c : Char) : Bool :=
  c == ' ' || c == '\t' || c == '\n' || c == '\r' || c == '\x0b' || c == '\x0c'

/-- Model of Python `s.strip()`. -/
def pyStrip (s : String) : String :=
  ⟨((s.data.dropWhile pyIsSpace).reverse.dropWhile pyIsSpace).reverse⟩

/-- Model of Python `s.lower()` (ASCII). -/
def pyLower (s : String) : String :=
  ⟨s.data.map Char.toLower⟩

/-- Does `needle` occur at the head of `hay`? -/
def leadMatch : List Char → List Char → Bool
  | [], _ => true
  | _ :: _, [] => false
  | c :: cs, h :: hs => c == h && leadMatch cs hs

/-- Does `needle` occur anywhere in `hay`?  (`needle in hay` on char lists). -/
def occursIn (needle : List Char) : List Char → Bool
  | [] => needle.isEmpty
  | h :: hs => leadMatch needle (h :: hs) || occursIn needle hs

/-- Model of the Python substring test `needle in hay`. -/
def pyIn (needle hay : String) : Bool :=
  occursIn needle.data hay.data

/-- Model of Python `s.find(c)`: index of the first occurrence, if any. -/
def pyFindChar (c : Char) (s : String) : Option Nat :=
  s.data.findIdx? (· == c)

/-- Model of Python `s.rfind(c)`: index of the last occurrence, if any. -/
def pyRFindChar (c : Char) (s : String) : Option Nat :=
  match s.data.reverse.findIdx? (· == c) with
  | some k => some (s.data.length - 1 - k)
  | none => none

/-- Model of the Python slice `s[i:j]` for the index ranges the code
produces (`0 ≤ i`, `j` at most the length; `j ≤ i` gives `""`). -/
def pySlice (s : String) (i j : Nat) : String :=
  ⟨(s.data.drop i).take (j - i)⟩

/-- Model of Python `l[-n:]` for `n > 0`. -/
def takeLast (n : Nat) (l : List α) : List α :=
  l.drop (l.length - n)

/-- Model of Python `x or d` for an optional string `x`:
`None` and `""` are falsy. -/
def pyOrStr (o : Option String) (d : String) : String :=
  match o with
  | some v => if v == "" then d else v
  | none => d

/-- Truthiness of an optional string (`if x:`): `None` and `""` are falsy. -/
def pyTruthyStr : Option String → Bool
  | none => false
  | some s => s != ""

/-- Truthiness of an optional integer (`if x:`): `None` and `0` are falsy. -/
def pyTruthyInt : Option Int → Bool
  | none => false
  | some n => n != 0

/-! ## Python `str.format` with one keyword argument

`llm_service.py` substitutes the item text with
`template.format(email_content=...)`, *outside* its try/except block.
`str.format` raises (`KeyError`/`IndexError`/`ValueError`) when the template
contains a replacement field other than `{email_content}` or an unbalanced
brace; `{{`/`}}` are literal braces.  `none` models the raised exception.
Format specifications (`{name:spec}`) are not modelled; the repository's
call sites only rely on plain named fields. -/

/-- Read a replacement-field name up to the closing `}`.
Returns the field and the remaining text; `none` if `}` is missing. -/
def readFieldChars : List Char → Option (List Char × List Char)
  | [] => none
  | c :: rest =>
    if c == '}' then some ([], rest)
    else (readFieldChars rest).map (fun p => (c :: p.1, p.2))

/-- Scanner for `str.format` with the single keyword `key`.  The fuel is one
more than the template length, which the scan never exhausts since every
step consumes at least one character. -/
def formatGo (key val : List Char) : Nat → List Char → Option (List Char)
  | 0, _ => none
  | _ + 1, [] => some []
  | fuel + 1, c :: rest =>
    if c == '{' then
      match rest with
      | [] => none
      | c2 :: rest2 =>
        if c2 == '{' then (formatGo key val fuel rest2).map (fun l => '{' :: l)
        else
          match readFieldChars (c2 :: rest2) with
          | none => none
          | some (fieldName, after) =>
            if fieldName == key then (formatGo key val fuel after).map (fun l => val ++ l)
            else none
    else if c == '}' then
      match rest with
      | [] => none
      | c2 :: rest2 =>
        if c2 == '}' then (formatGo key val fuel rest2).map (fun l => '}' :: l)
        else none
    else (formatGo key val fuel rest).map (fun l => c :: l)

/-- Model of Python `template.format(key=val)`; `none` models a raised
exception (unknown field, positional field, or unbalanced brace). -/
def pyFormat (template key val : String) : Option String :=
  (formatGo key.data val.data (template.data.length + 1) template.data).map
    (fun l => ⟨l⟩)

/-! ## JSON values

Decoded JSON values as produced by Python `json.loads`: the task-list
interpreter checks `isinstance(x, list)` and the agent reads `item.get(…)`
out of decoded objects.  Number literals keep their lexeme (the repository
never computes with them). -/

inductive Json where
  | null : Json
  | bool (b : Bool) : Json
  | num (lit : String) : Json
  | str (s : String) : Json
  | arr (xs : List Json) : Json
  | obj (kvs : List (String × Json)) : Json

/-- Is this decoded value a Python `dict`? -/
def Json.isObj : Json → Bool
  | .obj _ => true
  | _ => false

/-- Key lookup in a decoded JSON object (`dict.get`). -/
def jsonLookup (kvs : List (String × Json)) (key : String) : Option Json :=
  (kvs.find? (fun p => p.1 == key)).map (fun p => p.2)

mutual

/-- Python `repr` of a decoded JSON value, as used when `str` is applied to a
container (strings are single-quoted; quote escaping is not modelled). -/
def pyReprJson : Json → String
  | .null => "None"
  | .bool true => "True"
  | .bool false => "False"
  | .num lit => lit
  | .str s => "\x27" ++ s ++ "\x27"
  | .arr xs => "[" ++ pyReprList xs ++ "]"
  | .obj kvs => "\x7b" ++ pyReprPairs kvs ++ "\x7d"

/-- Comma-joined `repr`s of list elements. -/
def pyReprList : List Json → String
  | [] => ""
  | [x] => pyReprJson x
  | x :: y :: rest => pyReprJson x ++ ", " ++ pyReprList (y :: rest)

/-- Comma-joined `repr`s of object entries. -/
def pyReprPairs : List (String × Json) → String
  | [] => ""
  | [p] => "\x27" ++ p.1 ++ "\x27: " ++ pyReprJson p.2
  | p :: q :: rest => "\x27" ++ p.1 ++ "\x27: " ++ pyReprJson p.2 ++ ", " ++ pyReprPairs (q :: rest)

end

/-- Python `str` of a decoded JSON value (top level: strings print bare). -/
def pyStrJson : Json → String
  | .str s => s
  | v => pyReprJson v

/-! ## Provider client retry loop — `llm_service.py`, `LLMService._call_llm`

The OpenAI SDK call is abstracted as an oracle from the message list and the
attempt number to one of the outcomes the except-clauses distinguish:
success, `RateLimitError`, `APITimeoutError`, other `APIError`, or any other
exception.  Besides the returned text the model records the observable side
effects the claims speak about: how many times the backend was invoked and
the sequence of `time.sleep` durations (seconds).  Token-usage accounting is
not claim-relevant and is omitted. -/

/-- Outcome of one backend attempt, mirroring the except-clauses of
`LLMService._call_llm`. -/
inductive BackendOutcome where
  | ok (content : String) : BackendOutcome
  | rateLimit : BackendOutcome
  | timeout : BackendOutcome
  | apiError : BackendOutcome
  | otherError : BackendOutcome
deriving DecidableEq

/-- A backend: message list and attempt number to outcome. -/
def Backend : Type :=
  List (String × String) → Nat → BackendOutcome

/-- Result of `_call_llm` together with its observable effects. -/
structure CallOutcome where
  result : Option String
  calls : Nat
  sleeps : List Nat
deriving DecidableEq

/-- The `for attempt in range(max_retries)` loop of `_call_llm`.  `attempt`
is the current index and `left` the remaining iterations
(`left = maxRetries - attempt`); exhausted fuel is the fall-through
`return None` after the loop. -/
def callLoop (backend : Backend) (messages : List (String × String))
    (maxRetries : Nat) : Nat → Nat → CallOutcome
  | _, 0 => { result := none, calls := 0, sleeps := [] }
  | attempt, left + 1 =>
    match backend messages attempt with
    | .ok s => { result := some s, calls := 1, sleeps := [] }
    | .rateLimit =>
      if attempt < maxRetries - 1 then
        let r := callLoop backend messages maxRetries (attempt + 1) left
        { result := r.result, calls := r.calls + 1, sleeps := 2 ^ attempt :: r.sleeps }
      else { result := none, calls := 1, sleeps := [] }
    | .timeout =>
      if attempt < maxRetries - 1 then
        let r := callLoop backend messages maxRetries (attempt + 1) left
        { result := r.result, calls := r.calls + 1, sleeps := 1 :: r.sleeps }
      else { result := none, calls := 1, sleeps := [] }
    | .apiError =>
      if attempt < maxRetries - 1 then
        let r := callLoop backend messages maxRetries (attempt + 1) left
        { result := r.result, calls := r.calls + 1, sleeps := 1 :: r.sleeps }
      else { result := none, calls := 1, sleeps := [] }
    | .otherError => { result := none, calls := 1, sleeps := [] }

/-- Model of `LLMService._call_llm` (non-streaming). -/
def callLLM (backend : Backend) (messages : List (String × String))
    (maxRetries : Nat) : CallOutcome :=
  callLoop backend messages maxRetries 0 maxRetries

/-! ## Response interpreters

`LLMService.categorize_email` lines 119–128 and
`OllamaService.categorize_email` lines 151–160 post-process the raw model
text identically; likewise `extract_action_items` in both services.  The
interpreters are modelled once. -/

/-- The fixed category list, in the order the code tries it. -/
def validCategories : List String :=
  ["Important", "Newsletter", "Spam", "To-Do"]

/-- Position of a category in `validCategories` (4 for a non-member); used
to state the first-match property. -/
def catIdx (c : String) : Nat :=
  if c = "Important" then 0
  else if c = "Newsletter" then 1
  else if c = "Spam" then 2
  else if c = "To-Do" then 3
  else 4

/-- The `for cat in valid_categories` loop over a stripped response:
first category whose lowercased name occurs in the lowercased text,
else the text unchanged. -/
def extractCategory (category : String) : String :=
  match validCategories.find? (fun cat => pyIn (pyLower cat) (pyLower category)) with
  | some cat => cat
  | none => category

/-- Category interpretation of a `_call_llm` result (`if response:` treats
`None` and `""` as failure). -/
def interpretCategory (response : Option String) : Option String :=
  match response with
  | none => none
  | some resp =>
    if resp == "" then none
    else some (extractCategory (pyStrip resp))

/-- Task-list interpretation of a `_call_llm` result
(`extract_action_items` lines 157–180): slice from the first `[` to the last
`]` of the stripped text, parse, and keep the result only if it is a list.
`parse` abstracts `json.loads`; `none` is a `JSONDecodeError`, which the
code catches, so the interpreter is total. -/
def extractTasks (parse : String → Option Json) (response : Option String) :
    List Json :=
  match response with
  | none => []
  | some resp =>
    if resp == "" then []
    else
      let r := pyStrip resp
      match pyFindChar '[' r, pyRFindChar ']' r with
      | some startIdx, some endIdx =>
        match parse (pySlice r startIdx (endIdx + 1)) with
        | some (Json.arr items) => items
        | some _ => []
        | none => []
      | some _, none => []
      | none, _ => []

/-! ## Provider client operations — `llm_service.py`

The four operations of the remote-API variant.  Each builds a prompt from
the template (via `str.format`, which runs *outside* the try/except of
`_call_llm` and can therefore raise — modelled as `Except.error ()`), sends
the chat messages through `callLLM` and interprets the result.
`answer_query` performs no template substitution and so returns a plain
`Option String`. -/

/-- Model of `LLMService.categorize_email`. -/
def llmCategorizeEmail (backend : Backend) (maxRetries : Nat)
    (emailContent categorizationPrompt : String) : Except Unit (Option String) :=
  match pyFormat categorizationPrompt "email_content" emailContent with
  | none => Except.error ()
  | some prompt =>
    let messages :=
      [("system", "You are an email classification expert. Respond with ONLY the category name."),
       ("user", prompt)]
    Except.ok (interpretCategory (callLLM backend messages maxRetries).result)

/-- Model of `LLMService.extract_action_items`. -/
def llmExtractActionItems (parse : String → Option Json) (backend : Backend)
    (maxRetries : Nat) (emailContent actionPrompt : String) :
    Except Unit (List Json) :=
  match pyFormat actionPrompt "email_content" emailContent with
  | none => Except.error ()
  | some prompt =>
    let messages :=
      [("system", "You are an expert at extracting actionable tasks from emails. Always respond with valid JSON."),
       ("user", prompt)]
    Except.ok (extractTasks parse (callLLM backend messages maxRetries).result)

/-- Model of `LLMService.generate_reply`.  The `context` argument of the
source is accepted and ignored, exactly as in the source. -/
def llmGenerateReply (backend : Backend) (maxRetries : Nat)
    (emailContent _context replyPrompt : String)
    (userInstruction : Option String) : Except Unit (Option String) :=
  match pyFormat replyPrompt "email_content" emailContent with
  | none => Except.error ()
  | some p0 =>
    let prompt :=
      match userInstruction with
      | some instr =>
        if instr == "" then p0
        else p0 ++ "\n\nAdditional Instructions: " ++ instr
      | none => p0
    let messages :=
      [("system", "You are a professional email assistant. Write clear, concise, and appropriate email responses."),
       ("user", prompt)]
    Except.ok (callLLM backend messages maxRetries).result

/-- Model of `LLMService.answer_query` (no template substitution; never
raises). -/
def llmAnswerQuery (backend : Backend) (maxRetries : Nat) (query : String)
    (emailContext promptContext : Option String)
    (conversationHistory : List (String × String)) : Option String :=
  let messages :=
    [("system", "You are an intelligent email productivity assistant. Help users manage their inbox, understand emails, and draft responses. Be concise, helpful, and professional. If you reference specific emails, cite them clearly.")]
      ++ takeLast 5 conversationHistory
  let fullQuery :=
    match emailContext with
    | some ec => if ec == "" then query else "Email Context:\n" ++ ec ++ "\n\nUser Query: " ++ query
    | none => query
  let fullQuery :=
    match promptContext with
    | some pc => if pc == "" then fullQuery else fullQuery ++ "\n\nPrompt Configuration: " ++ pc
    | none => fullQuery
  let messages := messages ++ [("user", fullQuery)]
  (callLLM backend messages maxRetries).result

/-! ## Data model and persistence store — `models.py` / `database.py`

Rows of the three claim-relevant tables.  Timestamps are opaque strings
(the ISO strings stored by `database.py`); the `processing_logs` timestamp
column is outside the model.  `getEmail`, `updateEmail`, `getPrompt`,
`insertLog` and `getAllEmails` transcribe the corresponding `Database`
methods on this pure store. -/

structure Email where
  id : Int
  sender : String
  subject : String
  body : String
  timestamp : String
  hasAttachment : Bool
  category : Option String
  actionItems : List Json
  processed : Bool
  createdAt : String

structure PromptRow where
  promptType : String
  promptText : String
  isActive : Bool

structure LogEntry where
  emailId : Int
  operation : String
  status : String
  llmResponse : Option String
  errorMessage : Option String

structure Store where
  emails : List Email
  prompts : List PromptRow
  logs : List LogEntry

/-- `Database.get_email`: `SELECT * FROM emails WHERE id = ?`, first row. -/
def getEmail (s : Store) (emailId : Int) : Option Email :=
  s.emails.find? (fun e => e.id == emailId)

/-- The field updates of `Database.update_email` applied to one row:
each of the three parameters is applied only when present. -/
def applyUpd (category : Option String) (actionItems : Option (List Json))
    (processed : Option Bool) (e : Email) : Email :=
  let e1 := match category with
    | some c => { e with category := some c }
    | none => e
  let e2 := match actionItems with
    | some it => { e1 with actionItems := it }
    | none => e1
  match processed with
  | some p => { e2 with processed := p }
  | none => e2

/-- One row of `UPDATE emails SET … WHERE id = ?`. -/
def updEmail (emailId : Int) (category : Option String)
    (actionItems : Option (List Json)) (processed : Option Bool)
    (e : Email) : Email :=
  if e.id == emailId then applyUpd category actionItems processed e else e

/-- `Database.update_email`. -/
def updateEmail (s : Store) (emailId : Int) (category : Option String)
    (actionItems : Option (List Json)) (processed : Option Bool) : Store :=
  { s with emails := s.emails.map (updEmail emailId category actionItems processed) }

/-- `Database.get_prompt`: active prompt of the given type. -/
def getPrompt (s : Store) (promptType : String) : Option PromptRow :=
  s.prompts.find? (fun p => p.promptType == promptType && p.isActive)

/-- `Database.insert_log`: append-only. -/
def insertLog (s : Store) (log : LogEntry) : Store :=
  { s with logs := s.logs ++ [log] }

/-- Insertion step of a timestamp-descending sort. -/
def insertTsDesc (e : Email) : List Email → List Email
  | [] => [e]
  | x :: xs => if x.timestamp < e.timestamp then e :: x :: xs else x :: insertTsDesc e xs

/-- `ORDER BY timestamp DESC` on the text column. -/
def sortTsDesc (l : List Email) : List Email :=
  l.foldr insertTsDesc []

/-- `Database.get_all_emails`: newest first, limited. -/
def getAllEmails (s : Store) (limit : Nat) : List Email :=
  (sortTsDesc s.emails).take limit

/-! ## Processing pipeline — `email_processor.py`

The pipeline talks to the active provider through
`unified_llm_service`, which delegates every call unchanged; the provider
is abstracted as the two operations the pipeline uses.  Log records carry
the exact operation/status/message strings of the source. -/

/-- The provider interface the pipeline calls
(`unified_llm_service.categorize_email` / `.extract_action_items`). -/
structure LLMIface where
  categorizeEmail : String → String → Option String
  extractActionItems : String → String → List Json

/-- The `From:`/`Subject:` email-content string both pipeline steps build. -/
def emailContent (e : Email) : String :=
  "From: " ++ e.sender ++ "\nSubject: " ++ e.subject ++ "\n\n" ++ e.body

/-- A `processing_logs` row as written by `EmailProcessor._log_processing`. -/
def mkLog (emailId : Int) (operation status : String)
    (llmResponse errorMessage : Option String) : LogEntry :=
  { emailId := emailId, operation := operation, status := status,
    llmResponse := llmResponse, errorMessage := errorMessage }

/-- `EmailProcessor._categorize_email`: missing template returns `None`
without a log row; otherwise the provider result is logged as
success/failed and returned. -/
def categorizeEmailStep (llm : LLMIface) (s : Store) (email : Email) :
    Option String × Store :=
  match getPrompt s "categorization" with
  | none => (none, s)
  | some promptObj =>
    let category := llm.categorizeEmail (emailContent email) promptObj.promptText
    if pyTruthyStr category then
      (category, insertLog s (mkLog email.id "categorization" "success" category none))
    else
      (category, insertLog s (mkLog email.id "categorization" "failed" none (some "LLM returned no category")))

/-- `EmailProcessor._extract_action_items`: missing template degrades to an
empty list without a log row; otherwise the (possibly empty) result is
logged as success. -/
def extractActionItemsStep (llm : LLMIface) (s : Store) (email : Email) :
    List Json × Store :=
  match getPrompt s "action_extraction" with
  | none => ([], s)
  | some promptObj =>
    let items := llm.extractActionItems (emailContent email) promptObj.promptText
    if items.isEmpty then
      (items, insertLog s (mkLog email.id "action_extraction" "success" (some "No action items found") none))
    else
      (items, insertLog s (mkLog email.id "action_extraction" "success" (some ("Found " ++ toString items.length ++ " action items")) none))

/-- `EmailProcessor.process_email`: fetch, categorize, extract, persist.
`if not category:` aborts on `None` and on `""`. -/
def processEmail (llm : LLMIface) (s : Store) (emailId : Int) : Bool × Store :=
  match getEmail s emailId with
  | none => (false, s)
  | some email =>
    match categorizeEmailStep llm s email with
    | (category, s1) =>
      match category with
      | none =>
        (false, insertLog s1 (mkLog emailId "categorization" "failed" none (some "LLM categorization failed")))
      | some c =>
        if c == "" then
          (false, insertLog s1 (mkLog emailId "categorization" "failed" none (some "LLM categorization failed")))
        else
          match extractActionItemsStep llm s1 email with
          | (actionItems, s2) =>
            let s3 := updateEmail s2 emailId (some c) (some actionItems) (some true)
            let s4 := insertLog s3 (mkLog emailId "complete_processing" "success"
              (some ("Category: " ++ c ++ ", Actions: " ++ toString actionItems.length)) none)
            (true, s4)

/-! ## Batch processing — `EmailProcessor.batch_process_emails`

The per-item step is abstracted so that a raised exception
(`except Exception as e`) is expressible: `Except.error e` is an exception
with message `e`, `Except.ok b` is a normal `process_email` return. -/

structure BatchResults where
  total : Nat
  successful : Nat
  failed : Nat
  errors : List String

/-- The `for email_id in email_ids` loop: returns
(successful, failed, errors) plus the threaded store. -/
def batchLoop (step : Int → Store → Except String Bool × Store) :
    List Int → Store → (Nat × Nat × List String) × Store
  | [], s => ((0, 0, []), s)
  | emailId :: rest, s =>
    let (outcome, s1) := step emailId s
    let ((succ, fail, errs), s2) := batchLoop step rest s1
    match outcome with
    | .ok true => ((succ + 1, fail, errs), s2)
    | .ok false =>
      ((succ, fail + 1, ("Email " ++ toString emailId ++ " processing failed") :: errs), s2)
    | .error e =>
      ((succ, fail + 1, ("Email " ++ toString emailId ++ ": " ++ e) :: errs), s2)

/-- Model of `EmailProcessor.batch_process_emails`. -/
def batchProcess (step : Int → Store → Except String Bool × Store)
    (ids : List Int) (s : Store) : BatchResults × Store :=
  match batchLoop step ids s with
  | ((succ, fail, errs), s1) =>
    ({ total := ids.length, successful := succ, failed := fail, errors := errs }, s1)

/-- The batch driver instantiated with the pipeline itself (the pure model
of `process_email` never throws, so every outcome is `Except.ok`). -/
def batchProcessEmails (llm : LLMIface) (ids : List Int) (s : Store) :
    BatchResults × Store :=
  batchProcess (fun emailId st =>
    match processEmail llm st emailId with
    | (ok, st1) => (Except.ok ok, st1)) ids s

/-! ## Query router — `agent_logic.py`, `EmailAgent.handle_query`

The orchestrator's `answer_query` is abstracted as an oracle from
(query, email context, history messages) to the optional response.  Context
building can raise (`item.get` on a non-dict action item), so the functions
that touch action items return `Option`; `none` at the outer level of
`handleQuery` is an exception propagating to the caller. -/

/-- The fixed fallback reply of `handle_query`. -/
def fallbackMsg : String :=
  "I apologize, but I\x27m having trouble processing your request. Please try again."

/-- The inbox-wide keyword list of `_is_inbox_query`. -/
def inboxKeywords : List String :=
  ["show", "list", "urgent", "important", "all", "how many", "what", "tasks", "emails from"]

/-- `EmailAgent._is_inbox_query`. -/
def isInboxQuery (query : String) : Bool :=
  let queryLower := pyLower query
  inboxKeywords.any (fun k => pyIn k queryLower)

/-- The per-item line of `_build_email_context`:
`item.get('task', 'Unknown')`; `none` models the `AttributeError` raised
when the decoded action item is not a dict. -/
def taskLabel : Json → Option String
  | .obj kvs =>
    match jsonLookup kvs "task" with
    | some v => some (pyStrJson v)
    | none => some "Unknown"
  | _ => none

/-- The action-item lines of `_build_email_context`. -/
def taskLines : List Json → Option (List String)
  | [] => some []
  | item :: rest =>
    match taskLabel item with
    | none => none
    | some t => (taskLines rest).map (fun ls => ("  - " ++ t) :: ls)

/-- `EmailAgent._build_email_context`. -/
def buildEmailContext (email : Email) : Option String :=
  let base :=
    ["Email ID: " ++ toString email.id,
     "From: " ++ email.sender,
     "Subject: " ++ email.subject,
     "Date: " ++ email.timestamp,
     "Category: " ++ pyOrStr email.category "Uncategorized",
     "\nContent:\n" ++ email.body]
  if email.actionItems.isEmpty then
    some (String.intercalate "\n" base)
  else
    match taskLines email.actionItems with
    | none => none
    | some lines =>
      some (String.intercalate "\n"
        (base ++ ["\nAction Items: " ++ toString email.actionItems.length] ++ lines))

/-- Category histogram update (`categories[cat] = categories.get(cat,0)+1`
on an insertion-ordered dict). -/
def bump (acc : List (String × Nat)) (k : String) : List (String × Nat) :=
  if acc.any (fun p => p.1 == k) then
    acc.map (fun p => if p.1 == k then (p.1, p.2 + 1) else p)
  else acc ++ [(k, 1)]

/-- `EmailAgent._build_inbox_context` (its `query` argument is unused in the
source as well). -/
def buildInboxContext (s : Store) (_query : String) : String :=
  let allEmails := getAllEmails s 100
  if allEmails.isEmpty then "Inbox is empty."
  else
    let categories := allEmails.foldl (fun acc e => bump acc (pyOrStr e.category "Uncategorized")) []
    let totalActions := allEmails.foldl (fun n e => n + e.actionItems.length) 0
    let parts :=
      ["Total Emails: " ++ toString allEmails.length,
       "Categories: " ++ String.intercalate ", " (categories.map (fun p => p.1 ++ ": " ++ toString p.2)),
       "Total Action Items: " ++ toString totalActions,
       "\nRecent Emails:"]
      ++ (allEmails.take 5).map (fun e =>
           "  - [" ++ pyOrStr e.category "N/A" ++ "] " ++ e.subject ++ " from " ++ e.sender)
    String.intercalate "\n" parts

/-- The context-gathering branch of `handle_query` (lines 52–62):
`if selected_email_id:` is Python truthiness, so `Some 0` takes the `elif`.
The outer `Option` is an exception from context building; the inner one is
the `email_context` variable (`none` = no context built). -/
def queryContext (s : Store) (selectedEmailId : Option Int) (userQuery : String) :
    Option (Option String) :=
  if pyTruthyInt selectedEmailId then
    match getEmail s (selectedEmailId.getD 0) with
    | some email =>
      match buildEmailContext email with
      | some c => some (some c)
      | none => none
    | none => some none
  else if isInboxQuery userQuery then some (some (buildInboxContext s userQuery))
  else some none

/-- The response/fallback tail of `handle_query` (lines 71–74). -/
def respondWith (response : Option String) : String :=
  match response with
  | none => fallbackMsg
  | some r => if r == "" then fallbackMsg else r

/-- Model of `EmailAgent.handle_query`.  `answer` abstracts
`unified_llm_service.answer_query`; the history is truncated to the last
five messages as in the source. -/
def handleQuery (answer : String → Option String → List (String × String) → Option String)
    (s : Store) (userQuery : String) (selectedEmailId : Option Int)
    (history : List (String × String)) : Option String :=
  let messages := takeLast 5 history
  match queryContext s selectedEmailId userQuery with
  | none => none
  | some emailContext => some (respondWith (answer userQuery emailContext messages))

/-! ## Concrete instances used to evaluate the development -/

/-- A store with no rows. -/
def emptyStore : Store :=
  { emails := [], prompts := [], logs := [] }

/-- An unprocessed email as ingestion creates it. -/
def sampleEmail : Email :=
  { id := 1, sender := "alice@example.com", subject := "Quarterly report",
    body := "Please review the attached report by Friday.",
    timestamp := "2024-01-01T10:00:00", hasAttachment := true,
    category := none, actionItems := [], processed := false,
    createdAt := "2024-01-01T10:00:00" }

/-- A store holding `sampleEmail` and both pipeline templates. -/
def sampleStore : Store :=
  { emails := [sampleEmail],
    prompts :=
      [{ promptType := "categorization",
         promptText := "Categorize this email: \x7bemail_content\x7d", isActive := true },
       { promptType := "action_extraction",
         promptText := "Extract tasks: \x7bemail_content\x7d", isActive := true }],
    logs := [] }

/-- A provider whose categorization always succeeds and whose extraction
finds nothing. -/
def llmAlwaysImportant : LLMIface :=
  { categorizeEmail := fun _ _ => some "Important",
    extractActionItems := fun _ _ => [] }

/-- A provider whose categorization always fails. -/
def llmNoCategory : LLMIface :=
  { categorizeEmail := fun _ _ => none,
    extractActionItems := fun _ _ => [] }

/-- A concrete stand-in for `json.loads` recognising the one literal the
demonstration below feeds it. -/
def parseDemo : String → Option Json :=
  fun str => if str == "[1]" then some (Json.arr [Json.num "1"]) else none

/-- A concrete per-item batch step: id 1 processes successfully, id 2
returns a processing failure, every other id raises an exception. -/
def stepDemo : Int → Store → Except String Bool × Store :=
  fun emailId st =>
    if emailId == 1 then (Except.ok true, st)
    else if emailId == 2 then (Except.ok false, st)
    else (Except.error "boom", st)

/-! ## Lemmas on the retry loop -/

/-- Against an always-rate-limited backend the loop makes one call per
remaining iteration and sleeps `2^attempt` seconds between consecutive
attempts. -/
theorem callLoop_rateLimit_eq (messages : List (String × String)) :
    ∀ (left attempt : Nat),
      callLoop (fun _ _ => BackendOutcome.rateLimit) messages (attempt + left) attempt left =
        { result := none, calls := left,
          sleeps := (List.range' attempt (left - 1)).map (fun a => 2 ^ a) } := by
  intro left
  induction left with
  | zero => intro attempt; simp [callLoop]
  | succ l ih =>
    intro attempt
    by_cases hl : l = 0
    · subst hl
      simp [callLoop]
    · have hlt : attempt < attempt + (l + 1) - 1 := by omega
      obtain ⟨k, rfl⟩ : ∃ k, l = k + 1 := ⟨l - 1, by omega⟩
      have hstep :
          callLoop (fun _ _ => BackendOutcome.rateLimit) messages
              (attempt + (k + 1 + 1)) attempt (k + 1 + 1) =
            if attempt < attempt + (k + 1 + 1) - 1 then
              { result := (callLoop (fun _ _ => BackendOutcome.rateLimit) messages
                  (attempt + (k + 1 + 1)) (attempt + 1) (k + 1)).result,
                calls := (callLoop (fun _ _ => BackendOutcome.rateLimit) messages
                  (attempt + (k + 1 + 1)) (attempt + 1) (k + 1)).calls + 1,
                sleeps := 2 ^ attempt :: (callLoop (fun _ _ => BackendOutcome.rateLimit) messages
                  (attempt + (k + 1 + 1)) (attempt + 1) (k + 1)).sleeps }
            else { result := none, calls := 1, sleeps := [] } := rfl
      have harith : attempt + (k + 1 + 1) = (attempt + 1) + (k + 1) := by omega
      rw [hstep, if_pos hlt, harith, ih (attempt + 1)]
      simp [List.range'_succ]

/-- Against an always-`APIError` backend the loop behaves like the timeout
class: one call per remaining iteration with a fixed one-second sleep. -/
theorem callLoop_apiError_eq (messages : List (String × String)) :
    ∀ (left attempt : Nat),
      callLoop (fun _ _ => BackendOutcome.apiError) messages (attempt + left) attempt left =
        { result := none, calls := left, sleeps := List.replicate (left - 1) 1 } := by
  intro left
  induction left with
  | zero => intro attempt; simp [callLoop]
  | succ l ih =>
    intro attempt
    by_cases hl : l = 0
    · subst hl
      simp [callLoop]
    · have hlt : attempt < attempt + (l + 1) - 1 := by omega
      obtain ⟨k, rfl⟩ : ∃ k, l = k + 1 := ⟨l - 1, by omega⟩
      have hstep :
          callLoop (fun _ _ => BackendOutcome.apiError) messages
              (attempt + (k + 1 + 1)) attempt (k + 1 + 1) =
            if attempt < attempt + (k + 1 + 1) - 1 then
              { result := (callLoop (fun _ _ => BackendOutcome.apiError) messages
                  (attempt + (k + 1 + 1)) (attempt + 1) (k + 1)).result,
                calls := (callLoop (fun _ _ => BackendOutcome.apiError) messages
                  (attempt + (k + 1 + 1)) (attempt + 1) (k + 1)).calls + 1,
                sleeps := 1 :: (callLoop (fun _ _ => BackendOutcome.apiError) messages
                  (attempt + (k + 1 + 1)) (attempt + 1) (k + 1)).sleeps }
            else { result := none, calls := 1, sleeps := [] } := rfl
      have harith : attempt + (k + 1 + 1) = (attempt + 1) + (k + 1) := by omega
      rw [hstep, if_pos hlt, harith, ih (attempt + 1)]
      simp [List.replicate_succ]

/-- A backend that never succeeds never produces a result. -/
theorem callLoop_result_none (backend : Backend) (messages : List (String × String))
    (maxRetries : Nat) (h : ∀ a s, backend messages a ≠ BackendOutcome.ok s) :
    ∀ (left attempt : Nat),
      (callLoop backend messages maxRetries attempt left).result = none := by
  intro left
  induction left with
  | zero => intro attempt; rfl
  | succ l ih =>
    intro attempt
    simp only [callLoop]
    cases hb : backend messages attempt with
    | ok s => exact absurd hb (h attempt s)
    | rateLimit => by_cases hc : attempt < maxRetries - 1 <;> simp [hc, ih]
    | timeout => by_cases hc : attempt < maxRetries - 1 <;> simp [hc, ih]
    | apiError => by_cases hc : attempt < maxRetries - 1 <;> simp [hc, ih]
    | otherError => rfl

/-! ## Claims about the retry policy -/

/-- C5: against a backend that reports rate-limiting on every attempt,
`_call_llm` invokes the backend exactly `MAX_RETRIES` times, sleeping
`2^attempt` seconds between consecutive attempts, and returns `None` only
after all attempts are exhausted. -/
theorem c5_rate_limit_retry_policy (messages : List (String × String)) (maxRetries : Nat) :
    callLLM (fun _ _ => BackendOutcome.rateLimit) messages maxRetries =
      { result := none, calls := maxRetries,
        sleeps := (List.range (maxRetries - 1)).map (fun a => 2 ^ a) } := by
  have h := callLoop_rateLimit_eq messages maxRetries 0
  simpa [callLLM, List.range_eq_range'] using h

/-- C6 counterexample: with `MAX_RETRIES = 3` and a backend whose every
attempt raises a non-rate-limit, non-timeout `APIError` (the claim's
permanent-error class), the backend is invoked three times — two further
attempts after the first error, with one-second sleeps between them — so it
is not "attempted at most once more" and the loop is re-entered. -/
theorem c6_counterexample :
    (callLLM (fun _ _ => BackendOutcome.apiError) [] 3).calls = 3 ∧
    ¬ ((callLLM (fun _ _ => BackendOutcome.apiError) [] 3).calls ≤ 2) ∧
    (callLLM (fun _ _ => BackendOutcome.apiError) [] 3).sleeps = [1, 1] := by
  decide

/-- C6 amended: a generic `APIError` is retried on the same schedule as a
timeout — one-second sleeps, up to `MAX_RETRIES` total attempts — and only
then yields `None`; only an error outside the API-error taxonomy (the bare
`except Exception` clause) terminates the call immediately after its first
occurrence, with no further attempt and no sleep. -/
theorem c6_api_error_retry_policy :
    (∀ (messages : List (String × String)) (maxRetries : Nat),
      callLLM (fun _ _ => BackendOutcome.apiError) messages maxRetries =
        { result := none, calls := maxRetries,
          sleeps := List.replicate (maxRetries - 1) 1 }) ∧
    (∀ (backend : Backend) (messages : List (String × String)) (maxRetries : Nat),
      1 ≤ maxRetries → backend messages 0 = BackendOutcome.otherError →
      callLLM backend messages maxRetries =
        { result := none, calls := 1, sleeps := [] }) := by
  constructor
  · intro messages maxRetries
    have h := callLoop_apiError_eq messages maxRetries 0
    simpa [callLLM] using h
  · intro backend messages maxRetries hm hb
    obtain ⟨k, rfl⟩ : ∃ k, maxRetries = k + 1 := ⟨maxRetries - 1, by omega⟩
    simp [callLLM, callLoop, hb]

/-- C6 witness: the amended theorem evaluated at an unexpected-error
backend with three configured retries. -/
theorem c6_api_error_retry_policy_witness :
    callLLM (fun _ _ => BackendOutcome.otherError) [] 3 =
      { result := none, calls := 1, sleeps := [] } :=
  c6_api_error_retry_policy.2 (fun _ _ => BackendOutcome.otherError) [] 3
    (by decide) rfl

/-! ## Claims about the provider-boundary contract -/

/-- C7 counterexample: `categorize_email` runs `str.format` on the template
*before* entering `_call_llm`'s try/except, so a template containing any
replacement field other than `{email_content}` raises (`KeyError`) past the
provider boundary even though the backend itself would succeed — the call
does not return a no-result value. -/
theorem c7_counterexample :
    llmCategorizeEmail (fun _ _ => BackendOutcome.ok "Important") 3
      "Some email body"
      "Categorize this email: \x7bemail_content\x7d Respond as \x7bjson\x7d" =
      Except.error () := rfl

/-- C7 amended: transport failures never propagate — `_call_llm` absorbs
every backend exception class into a `None` result, so with a well-formed
template (one whose only replacement field is `email_content`) categorize,
extract-tasks and draft-reply return a value on every backend behaviour,
and `answer_query` (which performs no substitution) returns `None` on a
never-succeeding backend rather than raising; however template substitution
itself sits outside this protection (see the counterexample). -/
theorem c7_failure_is_returned_not_thrown :
    (∀ (backend : Backend) (messages : List (String × String)) (maxRetries : Nat),
      (∀ a s, backend messages a ≠ BackendOutcome.ok s) →
      (callLLM backend messages maxRetries).result = none) ∧
    (∀ (backend : Backend) (maxRetries : Nat) (content tmpl p : String),
      pyFormat tmpl "email_content" content = some p →
      (∃ r, llmCategorizeEmail backend maxRetries content tmpl = Except.ok r) ∧
      (∀ parse, ∃ l, llmExtractActionItems parse backend maxRetries content tmpl = Except.ok l) ∧
      (∀ ctx instr, ∃ r, llmGenerateReply backend maxRetries content ctx tmpl instr = Except.ok r)) ∧
    (∀ (backend : Backend) (maxRetries : Nat) (query : String)
        (emailContext promptContext : Option String)
        (history : List (String × String)),
      (∀ msgs a s, backend msgs a ≠ BackendOutcome.ok s) →
      llmAnswerQuery backend maxRetries query emailContext promptContext history = none) := by
  refine ⟨?_, ?_, ?_⟩
  · intro backend messages maxRetries h
    exact callLoop_result_none backend messages maxRetries h maxRetries 0
  · intro backend maxRetries content tmpl p hfmt
    refine ⟨?_, ?_, ?_⟩
    · cases hx : llmCategorizeEmail backend maxRetries content tmpl with
      | error e =>
        unfold llmCategorizeEmail at hx
        rw [hfmt] at hx
        exact Except.noConfusion hx
      | ok r => exact ⟨r, rfl⟩
    · intro parse
      cases hx : llmExtractActionItems parse backend maxRetries content tmpl with
      | error e =>
        unfold llmExtractActionItems at hx
        rw [hfmt] at hx
        exact Except.noConfusion hx
      | ok l => exact ⟨l, rfl⟩
    · intro ctx instr
      cases hx : llmGenerateReply backend maxRetries content ctx tmpl instr with
      | error e =>
        unfold llmGenerateReply at hx
        rw [hfmt] at hx
        exact Except.noConfusion hx
      | ok r => exact ⟨r, rfl⟩
  · intro backend maxRetries query emailContext promptContext history h
    unfold llmAnswerQuery
    exact callLoop_result_none backend _ maxRetries (h _) maxRetries 0

/-- C7 witness: the amended theorem evaluated at a rate-limited backend and
a well-formed template. -/
theorem c7_failure_is_returned_not_thrown_witness :
    ∃ r, llmCategorizeEmail (fun _ _ => BackendOutcome.rateLimit) 3 "Hello"
      "Categorize this email: \x7bemail_content\x7d" = Except.ok r :=
  (c7_failure_is_returned_not_thrown.2.1 (fun _ _ => BackendOutcome.rateLimit) 3
    "Hello" "Categorize this email: \x7bemail_content\x7d"
    "Categorize this email: Hello" rfl).1

/-! ## Claims about the response interpreters -/

/-- C3 counterexample: a model call that *succeeds* with the empty string is
mapped to `None` by the category interpreter (`if response:` is false on
`""`), so the interpreter does not return `None` only when the model call
itself failed. -/
theorem c3_counterexample : interpretCategory (some "") = none := rfl

/-- C3 amended: the category interpreter returns `None` exactly when the
model call failed **or returned the empty string**; for any non-empty
response it is total — it returns the first enumerated category (in the
fixed order Important, Newsletter, Spam, To-Do) whose name occurs
case-insensitively in the trimmed text, and otherwise the trimmed raw text
unchanged. -/
theorem c3_category_interpreter_total (s : String) (hne : s ≠ "") :
    interpretCategory none = none ∧
    interpretCategory (some "") = none ∧
    interpretCategory (some s) = some (extractCategory (pyStrip s)) ∧
    (extractCategory (pyStrip s) ∈ validCategories ∨
      extractCategory (pyStrip s) = pyStrip s) ∧
    ((∀ c ∈ validCategories, pyIn (pyLower c) (pyLower (pyStrip s)) = false) →
      extractCategory (pyStrip s) = pyStrip s) ∧
    (∀ c ∈ validCategories, pyIn (pyLower c) (pyLower (pyStrip s)) = true →
      extractCategory (pyStrip s) ∈ validCategories ∧
      pyIn (pyLower (extractCategory (pyStrip s))) (pyLower (pyStrip s)) = true ∧
      catIdx (extractCategory (pyStrip s)) ≤ catIdx c) := by
  have hinterp : interpretCategory (some s) = some (extractCategory (pyStrip s)) := by
    have : (s == "") = false := by
      simpa using hne
    simp [interpretCategory, this]
  refine ⟨rfl, rfl, hinterp, ?_⟩
  by_cases h1 : pyIn (pyLower "Important") (pyLower (pyStrip s)) = true
  · have hval : extractCategory (pyStrip s) = "Important" := by
      simp [extractCategory, validCategories, List.find?, h1]
    refine ⟨Or.inl (by simp [hval, validCategories]), ?_, ?_⟩
    · intro hall
      exact absurd h1 (by simp [hall "Important" (by simp [validCategories])])
    · intro c hc _
      refine ⟨by simp [hval, validCategories], by rw [hval]; exact h1, ?_⟩
      simp only [validCategories, List.mem_cons, List.not_mem_nil, or_false] at hc
      rcases hc with rfl | rfl | rfl | rfl
      all_goals rw [hval]
      all_goals decide
  · rw [Bool.not_eq_true] at h1
    by_cases h2 : pyIn (pyLower "Newsletter") (pyLower (pyStrip s)) = true
    · have hval : extractCategory (pyStrip s) = "Newsletter" := by
        simp [extractCategory, validCategories, List.find?, h1, h2]
      refine ⟨Or.inl (by simp [hval, validCategories]), ?_, ?_⟩
      · intro hall
        exact absurd h2 (by simp [hall "Newsletter" (by simp [validCategories])])
      · intro c hc hcin
        refine ⟨by simp [hval, validCategories], by rw [hval]; exact h2, ?_⟩
        simp only [validCategories, List.mem_cons, List.not_mem_nil, or_false] at hc
        rcases hc with rfl | rfl | rfl | rfl
        · rw [h1] at hcin; exact absurd hcin (by decide)
        all_goals rw [hval]
        all_goals decide
    · rw [Bool.not_eq_true] at h2
      by_cases h3 : pyIn (pyLower "Spam") (pyLower (pyStrip s)) = true
      · have hval : extractCategory (pyStrip s) = "Spam" := by
          simp [extractCategory, validCategories, List.find?, h1, h2, h3]
        refine ⟨Or.inl (by simp [hval, validCategories]), ?_, ?_⟩
        · intro hall
          exact absurd h3 (by simp [hall "Spam" (by simp [validCategories])])
        · intro c hc hcin
          refine ⟨by simp [hval, validCategories], by rw [hval]; exact h3, ?_⟩
          simp only [validCategories, List.mem_cons, List.not_mem_nil, or_false] at hc
          rcases hc with rfl | rfl | rfl | rfl
          · rw [h1] at hcin; exact absurd hcin (by decide)
          · rw [h2] at hcin; exact absurd hcin (by decide)
          all_goals rw [hval]
          all_goals decide
      · rw [Bool.not_eq_true] at h3
        by_cases h4 : pyIn (pyLower "To-Do") (pyLower (pyStrip s)) = true
        · have hval : extractCategory (pyStrip s) = "To-Do" := by
            simp [extractCategory, validCategories, List.find?, h1, h2, h3, h4]
          refine ⟨Or.inl (by simp [hval, validCategories]), ?_, ?_⟩
          · intro hall
            exact absurd h4 (by simp [hall "To-Do" (by simp [validCategories])])
          · intro c hc hcin
            refine ⟨by simp [hval, validCategories], by rw [hval]; exact h4, ?_⟩
            simp only [validCategories, List.mem_cons, List.not_mem_nil, or_false] at hc
            rcases hc with rfl | rfl | rfl | rfl
            · rw [h1] at hcin; exact absurd hcin (by decide)
            · rw [h2] at hcin; exact absurd hcin (by decide)
            · rw [h3] at hcin; exact absurd hcin (by decide)
            · rw [hval]
        · rw [Bool.not_eq_true] at h4
          have hval : extractCategory (pyStrip s) = pyStrip s := by
            simp [extractCategory, validCategories, List.find?, h1, h2, h3, h4]
          refine ⟨Or.inr hval, fun _ => hval, ?_⟩
          intro c hc hcin
          simp only [validCategories, List.mem_cons, List.not_mem_nil, or_false] at hc
          rcases hc with rfl | rfl | rfl | rfl
          · rw [h1] at hcin; exact absurd hcin (by decide)
          · rw [h2] at hcin; exact absurd hcin (by decide)
          · rw [h3] at hcin; exact absurd hcin (by decide)
          · rw [h4] at hcin; exact absurd hcin (by decide)

/-- C3 witness: the amended theorem evaluated at the spec's own example
response. -/
theorem c3_category_interpreter_total_witness :
    interpretCategory (some "This looks Important to me") =
      some (extractCategory (pyStrip "This looks Important to me")) :=
  (c3_category_interpreter_total "This looks Important to me" (by decide)).2.2.1

/-- C4: the task-list interpreter slices the trimmed response from the
first `[` to the last `]` inclusive and parses that substring; a parse
producing an array is returned as-is, while a failed parse, a non-array
result, or an absent bracket all degrade to the empty list — for *every*
parser standing in for `json.loads`, so no parse failure reaches the
pipeline (the interpreter is a total function). -/
theorem c4_task_interpreter_degrades (parse : String → Option Json) (resp : String) :
    extractTasks parse none = [] ∧
    ((pyFindChar '[' (pyStrip resp) = none ∨ pyRFindChar ']' (pyStrip resp) = none) →
      extractTasks parse (some resp) = []) ∧
    (∀ i j, pyFindChar '[' (pyStrip resp) = some i →
      pyRFindChar ']' (pyStrip resp) = some j →
      ((∀ xs, parse (pySlice (pyStrip resp) i (j + 1)) = some (Json.arr xs) →
          extractTasks parse (some resp) = xs) ∧
       (parse (pySlice (pyStrip resp) i (j + 1)) = none →
          extractTasks parse (some resp) = []) ∧
       (∀ v, parse (pySlice (pyStrip resp) i (j + 1)) = some v →
          (∀ xs, v ≠ Json.arr xs) → extractTasks parse (some resp) = []))) := by
  by_cases hz : resp = ""
  · subst hz
    refine ⟨rfl, fun _ => rfl, ?_⟩
    intro i j hi _
    have hred : pyFindChar '[' (pyStrip "") = (none : Option Nat) := rfl
    rw [hred] at hi
    exact Option.noConfusion hi
  · have hzb : (resp == "") = false := by simpa using hz
    refine ⟨rfl, ?_, ?_⟩
    · intro h
      rcases h with h | h
      · simp [extractTasks, hzb, h]
      · cases hfind : pyFindChar '[' (pyStrip resp) with
        | none => simp [extractTasks, hzb, hfind]
        | some i => simp [extractTasks, hzb, hfind, h]
    · intro i j hi hj
      refine ⟨?_, ?_, ?_⟩
      · intro xs hp
        simp [extractTasks, hzb, hi, hj, hp]
      · intro hp
        simp [extractTasks, hzb, hi, hj, hp]
      · intro v hp hv
        cases v with
        | arr xs => exact absurd rfl (hv xs)
        | null => simp [extractTasks, hzb, hi, hj, hp]
        | bool b => simp [extractTasks, hzb, hi, hj, hp]
        | num lit => simp [extractTasks, hzb, hi, hj, hp]
        | str t => simp [extractTasks, hzb, hi, hj, hp]
        | obj kvs => simp [extractTasks, hzb, hi, hj, hp]

/-- C4 witness: the interpreter evaluated on a response with surrounding
chatter, using a concrete parser. -/
theorem c4_task_interpreter_degrades_witness :
    extractTasks parseDemo (some "Sure: [1] done") = [Json.num "1"] :=
  ((c4_task_interpreter_degrades parseDemo "Sure: [1] done").2.2 6 8 rfl rfl).1
    [Json.num "1"] rfl

/-! ## Lemmas on batch processing -/

/-- Per-run accounting of the batch loop: every id contributes to exactly
one of the two counters, and every failure contributes exactly one error
string. -/
theorem batchLoop_counts (step : Int → Store → Except String Bool × Store) :
    ∀ (ids : List Int) (s : Store),
      (batchLoop step ids s).1.1 + (batchLoop step ids s).1.2.1 = ids.length ∧
      (batchLoop step ids s).1.2.2.length = (batchLoop step ids s).1.2.1 := by
  intro ids
  induction ids with
  | nil => intro s; simp [batchLoop]
  | cons emailId rest ih =>
    intro s
    cases hst : step emailId s with
    | mk outcome s1 =>
      have hrest := ih s1
      simp only [batchLoop, hst]
      cases hb : batchLoop step rest s1 with
      | mk p s2 =>
        obtain ⟨succ, fail, errs⟩ := p
        rw [hb] at hrest
        simp only at hrest
        cases outcome with
        | ok b =>
          cases b <;> (simp only [List.length_cons]; omega)
        | error e => simp only [List.length_cons]; omega

/-- The batch loop traverses a concatenation sequentially: the second part
runs in the store the first part left behind, and the counters and error
lists add up. -/
theorem batchLoop_append (step : Int → Store → Except String Bool × Store) :
    ∀ (l1 l2 : List Int) (s : Store),
      (batchLoop step (l1 ++ l2) s).2 = (batchLoop step l2 (batchLoop step l1 s).2).2 ∧
      (batchLoop step (l1 ++ l2) s).1.1 =
        (batchLoop step l1 s).1.1 + (batchLoop step l2 (batchLoop step l1 s).2).1.1 ∧
      (batchLoop step (l1 ++ l2) s).1.2.1 =
        (batchLoop step l1 s).1.2.1 + (batchLoop step l2 (batchLoop step l1 s).2).1.2.1 ∧
      (batchLoop step (l1 ++ l2) s).1.2.2 =
        (batchLoop step l1 s).1.2.2 ++ (batchLoop step l2 (batchLoop step l1 s).2).1.2.2 := by
  intro l1
  induction l1 with
  | nil => intro l2 s; simp [batchLoop]
  | cons emailId rest ih =>
    intro l2 s
    cases hst : step emailId s with
    | mk outcome s1 =>
      have hrest := ih l2 s1
      simp only [List.cons_append, batchLoop, hst]
      cases hb1 : batchLoop step (rest ++ l2) s1 with
      | mk p1 t1 =>
        cases hb2 : batchLoop step rest s1 with
        | mk p2 t2 =>
          obtain ⟨sa, fa, ea⟩ := p1
          obtain ⟨sb, fb, eb⟩ := p2
          rw [hb1, hb2] at hrest
          simp only at hrest
          obtain ⟨hst2, hsucc, hfail, herr⟩ := hrest
          cases outcome with
          | ok b =>
            cases b <;>
              simp_all <;> omega
          | error e => simp_all; omega

/-! ## Claim about batch processing -/

/-- C8: `batch_process_emails` reports `total = N` for `N` input ids,
splits them exactly into `successful + failed = N` with one error string
per failure (`errors.length = failed`), and counts by the step's actual
outcome: a singleton batch on a succeeding id yields `{1, 1, 0, []}`, on a
failing id `{1, 0, 1}` with exactly the "processing failed" error string,
and on an id whose processing raises (`Except.error`, the caught per-item
exception) `{1, 0, 1}` with exactly the exception's message — so on `N` ids
of which `K` fail the counters are `{N, N-K, K}` with `K` error strings.
Every id is processed in order: over any concatenation the second half runs
in the store the first half left, regardless of failures or exceptions in
the first, and the per-half counters and error lists add up — no outcome
aborts the batch or escapes to the caller. -/
theorem c8_batch_statistics (step : Int → Store → Except String Bool × Store)
    (ids l1 l2 : List Int) (s : Store) (emailId : Int) (t t' : Store) (msg : String) :
    (batchProcess step ids s).1.total = ids.length ∧
    (batchProcess step ids s).1.successful + (batchProcess step ids s).1.failed =
      ids.length ∧
    (batchProcess step ids s).1.errors.length = (batchProcess step ids s).1.failed ∧
    (step emailId t = (Except.ok true, t') →
      batchProcess step [emailId] t =
        ({ total := 1, successful := 1, failed := 0, errors := [] }, t')) ∧
    (step emailId t = (Except.ok false, t') →
      batchProcess step [emailId] t =
        ({ total := 1, successful := 0, failed := 1,
           errors := ["Email " ++ toString emailId ++ " processing failed"] }, t')) ∧
    (step emailId t = (Except.error msg, t') →
      batchProcess step [emailId] t =
        ({ total := 1, successful := 0, failed := 1,
           errors := ["Email " ++ toString emailId ++ ": " ++ msg] }, t')) ∧
    (batchProcess step (l1 ++ l2) s).1.successful =
      (batchProcess step l1 s).1.successful +
        (batchProcess step l2 (batchProcess step l1 s).2).1.successful ∧
    (batchProcess step (l1 ++ l2) s).1.failed =
      (batchProcess step l1 s).1.failed +
        (batchProcess step l2 (batchProcess step l1 s).2).1.failed ∧
    (batchProcess step (l1 ++ l2) s).1.errors =
      (batchProcess step l1 s).1.errors ++
        (batchProcess step l2 (batchProcess step l1 s).2).1.errors ∧
    (batchProcess step (l1 ++ l2) s).2 =
      (batchProcess step l2 (batchProcess step l1 s).2).2 := by
  have hform : ∀ (l : List Int) (t0 : Store),
      batchProcess step l t0 =
        ({ total := l.length, successful := (batchLoop step l t0).1.1,
           failed := (batchLoop step l t0).1.2.1,
           errors := (batchLoop step l t0).1.2.2 },
         (batchLoop step l t0).2) := by
    intro l t0
    unfold batchProcess
    cases hx : batchLoop step l t0 with
    | mk p u =>
      obtain ⟨a, b, c⟩ := p
      simp [hx]
  have hc := batchLoop_counts step ids s
  have ha := batchLoop_append step l1 l2 s
  refine ⟨?_, ?_, ?_, ?_, ?_, ?_, ?_, ?_, ?_, ?_⟩
  · simp [hform]
  · simp only [hform]
    exact hc.1
  · simp only [hform]
    exact hc.2
  · intro hst
    simp [batchProcess, batchLoop, hst]
  · intro hst
    simp [batchProcess, batchLoop, hst]
  · intro hst
    simp [batchProcess, batchLoop, hst]
  · simp only [hform]
    exact ha.2.1
  · simp only [hform]
    exact ha.2.2.1
  · simp only [hform]
    exact ha.2.2.2
  · simp only [hform]
    exact ha.1

/-- C8 witness: the singleton characterizations evaluated at a concrete
step whose id 1 succeeds, id 2 fails, and id 3 raises. -/
theorem c8_batch_statistics_witness :
    batchProcess stepDemo [1] emptyStore =
      ({ total := 1, successful := 1, failed := 0, errors := [] }, emptyStore) ∧
    batchProcess stepDemo [2] emptyStore =
      ({ total := 1, successful := 0, failed := 1,
         errors := ["Email 2 processing failed"] }, emptyStore) ∧
    batchProcess stepDemo [3] emptyStore =
      ({ total := 1, successful := 0, failed := 1,
         errors := ["Email 3: boom"] }, emptyStore) :=
  ⟨(c8_batch_statistics stepDemo [] [] [] emptyStore 1 emptyStore emptyStore "").2.2.2.1 rfl,
   (c8_batch_statistics stepDemo [] [] [] emptyStore 2 emptyStore emptyStore "").2.2.2.2.1 rfl,
   (c8_batch_statistics stepDemo [] [] [] emptyStore 3 emptyStore emptyStore "boom").2.2.2.2.2.1 rfl⟩

/-! ## Lemmas on the persistence store and the pipeline steps -/

/-- The row update of `update_email` does not change the row id. -/
theorem applyUpd_id (category : Option String) (actionItems : Option (List Json))
    (processed : Option Bool) (e : Email) :
    (applyUpd category actionItems processed e).id = e.id := by
  unfold applyUpd
  cases category <;> cases actionItems <;> cases processed <;> rfl

/-- Updating with `processed = True` leaves the flag set. -/
theorem applyUpd_processed_true (category : Option String)
    (actionItems : Option (List Json)) (e : Email) :
    (applyUpd category actionItems (some true) e).processed = true := by
  unfold applyUpd
  cases category <;> cases actionItems <;> rfl

/-- `UPDATE … WHERE id = ?` commutes with the `SELECT … WHERE id = ?`
lookup: looking up the updated id returns the updated row. -/
theorem find_map_updEmail (emailId : Int) (category : Option String)
    (actionItems : Option (List Json)) (processed : Option Bool) :
    ∀ l : List Email,
      (l.map (updEmail emailId category actionItems processed)).find?
          (fun e => e.id == emailId) =
        (l.find? (fun e => e.id == emailId)).map (applyUpd category actionItems processed) := by
  intro l
  induction l with
  | nil => rfl
  | cons e t ih =>
    by_cases h : (e.id == emailId) = true
    · have hupd : updEmail emailId category actionItems processed e =
          applyUpd category actionItems processed e := by
        unfold updEmail
        rw [if_pos h]
      have hid : ((applyUpd category actionItems processed e).id == emailId) = true := by
        rw [applyUpd_id]
        exact h
      simp [List.find?_cons, hupd, hid, h]
    · have hupd : updEmail emailId category actionItems processed e = e := by
        unfold updEmail
        rw [if_neg h]
      have h' : (e.id == emailId) = false := by
        simpa using h
      simp [List.find?_cons, hupd, h', ih]

/-- `get_email` after `update_email` of the same id. -/
theorem getEmail_updateEmail (s : Store) (emailId : Int) (category : Option String)
    (actionItems : Option (List Json)) (processed : Option Bool) :
    getEmail (updateEmail s emailId category actionItems processed) emailId =
      (getEmail s emailId).map (applyUpd category actionItems processed) := by
  unfold getEmail updateEmail
  exact find_map_updEmail emailId category actionItems processed s.emails

/-- Inserting a log row does not change the email table. -/
theorem insertLog_emails (s : Store) (log : LogEntry) :
    (insertLog s log).emails = s.emails := rfl

/-- `get_email` only reads the email table. -/
theorem getEmail_eq_of_emails (s t : Store) (h : s.emails = t.emails) (emailId : Int) :
    getEmail s emailId = getEmail t emailId := by
  unfold getEmail
  rw [h]

/-- The categorization step only appends log rows. -/
theorem categorizeEmailStep_emails (llm : LLMIface) (s : Store) (e : Email) :
    ((categorizeEmailStep llm s e).2).emails = s.emails := by
  unfold categorizeEmailStep
  cases getPrompt s "categorization" with
  | none => rfl
  | some promptObj =>
    dsimp only
    split <;> rfl

/-- The extraction step only appends log rows. -/
theorem extractActionItemsStep_emails (llm : LLMIface) (s : Store) (e : Email) :
    ((extractActionItemsStep llm s e).2).emails = s.emails := by
  unfold extractActionItemsStep
  cases getPrompt s "action_extraction" with
  | none => rfl
  | some promptObj =>
    dsimp only
    split <;> rfl

/-- The categorization step only reads the provider's `categorize_email`,
so it is unaffected by swapping the extraction operation. -/
theorem categorizeEmailStep_extract_irrelevant (llm : LLMIface)
    (f : String → String → List Json) (s : Store) (e : Email) :
    categorizeEmailStep { llm with extractActionItems := f } s e =
      categorizeEmailStep llm s e := rfl

/-! ## Claims about the pipeline -/

/-- C1: for a valid, not-yet-processed item id, one run of
`process_email` (categorize, then extract, then `update_email`) leaves the
stored `processed` flag true exactly when the categorization step produced
a non-empty category; the extraction result — including an empty task
list — does not influence the flag (the statement holds for every provider
interface, in particular one whose extraction always returns `[]`). -/
theorem c1_processed_iff_categorized (llm : LLMIface) (s : Store) (emailId : Int)
    (e : Email) (he : getEmail s emailId = some e) (hp : e.processed = false) :
    ((getEmail (processEmail llm s emailId).2 emailId).map Email.processed = some true) ↔
      pyTruthyStr (categorizeEmailStep llm s e).1 = true := by
  unfold processEmail
  rw [he]
  cases hcc : categorizeEmailStep llm s e with
  | mk category s1 =>
    simp only [hcc]
    have hs1 : s1.emails = s.emails := by
      have h := categorizeEmailStep_emails llm s e
      rw [hcc] at h
      exact h
    cases category with
    | none =>
      have hget : getEmail (insertLog s1 (mkLog emailId "categorization" "failed" none
          (some "LLM categorization failed"))) emailId = some e := by
        rw [getEmail_eq_of_emails _ s (by rw [insertLog_emails, hs1]) emailId]
        exact he
      simp [hget, hp, pyTruthyStr]
    | some c =>
      by_cases hc0 : (c == "") = true
      · have hget : getEmail (insertLog s1 (mkLog emailId "categorization" "failed" none
            (some "LLM categorization failed"))) emailId = some e := by
          rw [getEmail_eq_of_emails _ s (by rw [insertLog_emails, hs1]) emailId]
          exact he
        have hcs : c = "" := by simpa using hc0
        simp [hc0, hget, hp, pyTruthyStr, hcs]
      · cases hxx : extractActionItemsStep llm s1 e with
        | mk actionItems s2 =>
          have hs2 : s2.emails = s1.emails := by
            have h := extractActionItemsStep_emails llm s1 e
            rw [hxx] at h
            exact h
          have hget2 : getEmail s2 emailId = some e := by
            rw [getEmail_eq_of_emails _ s (hs2.trans hs1) emailId]
            exact he
          have hupd : getEmail (updateEmail s2 emailId (some c) (some actionItems)
              (some true)) emailId = some (applyUpd (some c) (some actionItems) (some true) e) := by
            rw [getEmail_updateEmail, hget2]
            rfl
          have hfin : getEmail (insertLog (updateEmail s2 emailId (some c)
              (some actionItems) (some true)) (mkLog emailId "complete_processing" "success"
              (some ("Category: " ++ c ++ ", Actions: " ++ toString actionItems.length)) none))
              emailId = some (applyUpd (some c) (some actionItems) (some true) e) := by
            rw [getEmail_eq_of_emails _ (updateEmail s2 emailId (some c) (some actionItems)
              (some true)) (insertLog_emails _ _) emailId]
            exact hupd
          have hc0' : (c == "") = false := by
            simpa using hc0
          have hcne : c ≠ "" := by
            simpa using hc0'
          simp [hc0', hfin, applyUpd_processed_true, pyTruthyStr, hcne]

/-- C1 witness: the theorem evaluated on the sample store with a provider
that categorizes every item as Important and finds zero tasks. -/
theorem c1_processed_iff_categorized_witness :
    ((getEmail (processEmail llmAlwaysImportant sampleStore 1).2 1).map Email.processed =
        some true) ↔
      pyTruthyStr (categorizeEmailStep llmAlwaysImportant sampleStore sampleEmail).1 = true :=
  c1_processed_iff_categorized llmAlwaysImportant sampleStore 1 sampleEmail rfl rfl

/-- C2: when the categorization step yields no usable category (`None` or
`""`), `process_email` returns failure, leaves the email table — the
item's stored state — untouched, and never invokes task extraction: the
whole run is unchanged under an arbitrary replacement of the provider's
extraction operation. -/
theorem c2_failed_categorization_aborts (llm : LLMIface)
    (f : String → String → List Json) (s : Store) (emailId : Int) (e : Email)
    (he : getEmail s emailId = some e)
    (hc : pyTruthyStr (categorizeEmailStep llm s e).1 = false) :
    (processEmail llm s emailId).1 = false ∧
    ((processEmail llm s emailId).2).emails = s.emails ∧
    processEmail { llm with extractActionItems := f } s emailId =
      processEmail llm s emailId := by
  unfold processEmail
  rw [he]
  dsimp only
  rw [categorizeEmailStep_extract_irrelevant llm f s e]
  cases hcc : categorizeEmailStep llm s e with
  | mk category s1 =>
    simp only [hcc]
    have hs1 : s1.emails = s.emails := by
      have h := categorizeEmailStep_emails llm s e
      rw [hcc] at h
      exact h
    rw [hcc] at hc
    cases category with
    | none =>
      refine ⟨rfl, ?_, rfl⟩
      show (insertLog s1 (mkLog emailId "categorization" "failed" none
        (some "LLM categorization failed"))).emails = s.emails
      rw [insertLog_emails, hs1]
    | some c =>
      have hceq : c = "" := by
        simpa [pyTruthyStr] using hc
      subst hceq
      refine ⟨rfl, ?_, rfl⟩
      show (insertLog s1 (mkLog emailId "categorization" "failed" none
        (some "LLM categorization failed"))).emails = s.emails
      rw [insertLog_emails, hs1]

/-- C2 witness: the theorem evaluated on the sample store with a provider
whose categorization fails and a replacement extraction returning a
sentinel task. -/
theorem c2_failed_categorization_aborts_witness :
    (processEmail llmNoCategory sampleStore 1).1 = false ∧
    ((processEmail llmNoCategory sampleStore 1).2).emails = sampleStore.emails ∧
    processEmail { llmNoCategory with extractActionItems := fun _ _ => [Json.null] }
        sampleStore 1 =
      processEmail llmNoCategory sampleStore 1 :=
  c2_failed_categorization_aborts llmNoCategory (fun _ _ => [Json.null]) sampleStore 1
    sampleEmail rfl rfl

/-! ## Lemmas on the query router -/

/-- The router's response post-processing never yields the empty string. -/
theorem respondWith_ne_empty (r : Option String) : respondWith r ≠ "" := by
  cases r with
  | none => decide
  | some t =>
    simp only [respondWith]
    by_cases h : (t == "") = true
    · rw [if_pos h]
      decide
    · rw [if_neg h]
      simpa using h

/-- `item.get` succeeds on every action item that decoded to a dict. -/
theorem taskLines_total (items : List Json)
    (h : ∀ j ∈ items, Json.isObj j = true) : ∃ ls, taskLines items = some ls := by
  induction items with
  | nil => exact ⟨[], rfl⟩
  | cons item rest ih =>
    have hobj := h item (List.mem_cons_self item rest)
    have hlabel : ∃ t, taskLabel item = some t := by
      cases item with
      | obj kvs =>
        cases hjl : jsonLookup kvs "task" with
        | some v => exact ⟨pyStrJson v, by simp [taskLabel, hjl]⟩
        | none => exact ⟨"Unknown", by simp [taskLabel, hjl]⟩
      | null => simp [Json.isObj] at hobj
      | bool b => simp [Json.isObj] at hobj
      | num lit => simp [Json.isObj] at hobj
      | str t => simp [Json.isObj] at hobj
      | arr xs => simp [Json.isObj] at hobj
    obtain ⟨t, ht⟩ := hlabel
    obtain ⟨ls, hls⟩ := ih (fun j hj => h j (List.mem_cons_of_mem item hj))
    exact ⟨("  - " ++ t) :: ls, by simp [taskLines, ht, hls]⟩

/-- Context building succeeds on an email whose action items all decoded
to dicts. -/
theorem buildEmailContext_total (e : Email)
    (h : ∀ j ∈ e.actionItems, Json.isObj j = true) :
    ∃ c, buildEmailContext e = some c := by
  unfold buildEmailContext
  by_cases hemp : e.actionItems.isEmpty = true
  · rw [if_pos hemp]
    exact ⟨_, rfl⟩
  · rw [if_neg hemp]
    obtain ⟨ls, hls⟩ := taskLines_total e.actionItems h
    rw [hls]
    exact ⟨_, rfl⟩

/-! ## Claims about the query router -/

/-- C9: on a store whose action items decoded to dicts (the shape the data
model prescribes for task records), `handle_query` always returns a
non-empty string, and whenever the orchestrator's `answer_query` yields no
result — `None` or empty text — the router returns the fixed apologetic
fallback message. -/
theorem c9_router_never_empty
    (answer : String → Option String → List (String × String) → Option String)
    (s : Store) (userQuery : String) (selectedEmailId : Option Int)
    (history : List (String × String))
    (hwf : ∀ e ∈ s.emails, ∀ j ∈ e.actionItems, Json.isObj j = true) :
    (∃ r, handleQuery answer s userQuery selectedEmailId history = some r ∧ r ≠ "") ∧
    ((∀ q c msgs, answer q c msgs = none ∨ answer q c msgs = some "") →
      handleQuery answer s userQuery selectedEmailId history = some fallbackMsg) := by
  have hctx : ∃ ctx, queryContext s selectedEmailId userQuery = some ctx := by
    unfold queryContext
    by_cases ht : pyTruthyInt selectedEmailId = true
    · rw [if_pos ht]
      cases hge : getEmail s (selectedEmailId.getD 0) with
      | none => exact ⟨none, rfl⟩
      | some email =>
        have hmem : email ∈ s.emails := List.mem_of_find?_eq_some hge
        obtain ⟨c, hcb⟩ := buildEmailContext_total email (hwf email hmem)
        refine ⟨some c, ?_⟩
        dsimp only
        rw [hcb]
    · rw [if_neg ht]
      by_cases hq : isInboxQuery userQuery = true
      · rw [if_pos hq]
        exact ⟨_, rfl⟩
      · rw [if_neg hq]
        exact ⟨none, rfl⟩
  obtain ⟨ctx, hctx⟩ := hctx
  constructor
  · refine ⟨respondWith (answer userQuery ctx (takeLast 5 history)), ?_,
      respondWith_ne_empty _⟩
    unfold handleQuery
    rw [hctx]
  · intro hA
    unfold handleQuery
    rw [hctx]
    dsimp only
    rcases hA userQuery ctx (takeLast 5 history) with h | h <;> rw [h] <;> rfl

/-- C9 witness: the theorem evaluated on the sample store with an
orchestrator that yields no result. -/
theorem c9_router_never_empty_witness :
    handleQuery (fun _ _ _ => none) sampleStore "hello" none [] = some fallbackMsg :=
  (c9_router_never_empty (fun _ _ _ => none) sampleStore "hello" none []
    (by decide)).2 (fun _ _ _ => Or.inl rfl)

/-- C10 counterexample: a *supplied* focused id of `0` that matches no
stored item — the store is empty — does not suppress context building:
`if selected_email_id:` treats `0` as absent, the keyword classification is
consulted, the query `"show me all emails"` matches, and inbox-scope
context (`"Inbox is empty."`) is built instead of no context at all. -/
theorem c10_counterexample :
    getEmail emptyStore 0 = none ∧
    queryContext emptyStore (some 0) "show me all emails" =
      some (some "Inbox is empty.") := ⟨rfl, rfl⟩

/-- C10 amended: when the supplied focused id is *non-zero* and no stored
item has that id, no context is built (`email_context = None`) for every
query text — in particular the collection-scope keyword classification is
irrelevant — and the query is forwarded to the orchestrator's answer
operation as a plain conversational query; a supplied id of `0` is instead
treated as absent by Python truthiness and falls through to the keyword
test (see the counterexample). -/
theorem c10_missing_item_plain_query
    (answer : String → Option String → List (String × String) → Option String)
    (s : Store) (userQuery : String) (n : Int) (history : List (String × String))
    (hn : n ≠ 0) (hmiss : getEmail s n = none) :
    queryContext s (some n) userQuery = some none ∧
    handleQuery answer s userQuery (some n) history =
      some (respondWith (answer userQuery none (takeLast 5 history))) := by
  have ht : pyTruthyInt (some n) = true := by
    simpa [pyTruthyInt] using hn
  have hq : queryContext s (some n) userQuery = some none := by
    unfold queryContext
    rw [if_pos ht, show (some n).getD 0 = n from rfl, hmiss]
  refine ⟨hq, ?_⟩
  unfold handleQuery
  rw [hq]

/-- C10 witness: the amended theorem evaluated at a missing non-zero id and
a keyword-bearing query. -/
theorem c10_missing_item_plain_query_witness :
    queryContext emptyStore (some 7) "show all" = some none ∧
    handleQuery (fun _ _ _ => none) emptyStore "show all" (some 7) [] =
      some (respondWith none) :=
  c10_missing_item_plain_query (fun _ _ _ => none) emptyStore "show all" 7 []
    (by decide) rfl

end EmailAgent
